import Mathlib

/-!
Shallow embedding of `src/amazon_analysis.py` (class `AmazonAnalyzer` and the
driver `main`).

Numeric cells of the dataframe are modelled by `FV`: a float value that is
either NaN (a missing value, as produced by `pd.to_numeric(errors="coerce")`
on unparseable text and propagated by arithmetic), an infinity with a sign
(as produced by float division of a nonzero value by zero), or a finite
value, modelled exactly as a rational.  Arithmetic on `FV` follows the IEEE
rules pandas/numpy use for these cases (NaN propagation, nonzero/0 = ±inf,
0/0 = NaN); overflow and negative zero never occur on the values this script
manipulates and are not modelled.

The charting and file-system side effects of the script are black boxes to
the analysis code (the spec treats matplotlib and the OS this way); they are
modelled by small oracles (`SaveOutcome`, `LoadOutcome`) saying whether the
library call raises, while all control flow around them is taken from the
source.
-/

/-- Value of a numeric dataframe cell: NaN, a signed infinity
(`FV.inf true` is positive infinity), or a finite value. -/
inductive FV where
  | nan : FV
  | inf : Bool → FV
  | num : ℚ → FV
deriving DecidableEq

/-- Float subtraction on cells (IEEE rules for NaN and infinities). -/
def fvSub : FV → FV → FV
  | FV.nan, _ => FV.nan
  | _, FV.nan => FV.nan
  | FV.num a, FV.num b => FV.num (a - b)
  | FV.inf s, FV.num _ => FV.inf s
  | FV.num _, FV.inf s => FV.inf (!s)
  | FV.inf s, FV.inf t => if s = t then FV.nan else FV.inf s

/-- Float multiplication on cells (IEEE rules; `inf * 0 = NaN`). -/
def fvMul : FV → FV → FV
  | FV.nan, _ => FV.nan
  | _, FV.nan => FV.nan
  | FV.num a, FV.num b => FV.num (a * b)
  | FV.inf s, FV.num b =>
      if b = 0 then FV.nan else if 0 < b then FV.inf s else FV.inf (!s)
  | FV.num a, FV.inf s =>
      if a = 0 then FV.nan else if 0 < a then FV.inf s else FV.inf (!s)
  | FV.inf s, FV.inf t => FV.inf (s == t)

/-- Float division on cells: `x / 0` is a signed infinity for finite
nonzero `x` and NaN for `x = 0`, exactly as pandas float division behaves. -/
def fvDiv : FV → FV → FV
  | FV.nan, _ => FV.nan
  | _, FV.nan => FV.nan
  | FV.num a, FV.num b =>
      if b = 0 then
        (if a = 0 then FV.nan else if 0 < a then FV.inf true else FV.inf false)
      else FV.num (a / b)
  | FV.num _, FV.inf _ => FV.num 0
  | FV.inf s, FV.num b =>
      if b = 0 then FV.inf s else if 0 < b then FV.inf s else FV.inf (!s)
  | FV.inf _, FV.inf _ => FV.nan

/-- Rounding of a rational to the nearest integer, halves to even
(the rounding numpy uses for `.round`). -/
def roundHalfEven (q : ℚ) : ℤ :=
  let n := Int.floor q
  if q - n < 1/2 then n
  else if 1/2 < q - n then n + 1
  else if Even n then n else n + 1

/-- Rounding of a rational to 2 decimal places, halves to even. -/
def round2q (q : ℚ) : ℚ := (roundHalfEven (q * 100) : ℚ) / 100

/-- Pandas `.round(2)` on a cell: NaN and infinities are preserved. -/
def fvRound2 : FV → FV
  | FV.nan => FV.nan
  | FV.inf s => FV.inf s
  | FV.num q => FV.num (round2q q)

/-- Pandas `.fillna(0)` on a cell. -/
def fillna0 : FV → FV
  | FV.nan => FV.num 0
  | v => v

/-- Decimal value of a list of digit characters (most significant first). -/
def natOfDigits (l : List Char) : ℕ :=
  l.foldl (fun acc c => 10 * acc + (c.toNat - 48)) 0

/-- Model of `pd.to_numeric(·, errors="coerce")` on one text cell,
restricted to plain decimal literals (optional sign, integer digits,
optional fractional part); anything else coerces to a missing value.
Exponent notation never occurs in this dataset and is not modelled. -/
def parseNum (s : String) : Option ℚ :=
  let cs := s.data
  let sign : ℚ := if cs.head? = some '-' then -1 else 1
  let body : List Char :=
    if cs.head? = some '-' ∨ cs.head? = some '+' then cs.tail else cs
  let intPart := body.takeWhile (fun c => c.isDigit)
  let rest := body.dropWhile (fun c => c.isDigit)
  match rest with
  | [] =>
      if intPart.isEmpty then none
      else some (sign * (natOfDigits intPart : ℚ))
  | '.' :: frac =>
      if frac.all (fun c => c.isDigit) && !(intPart.isEmpty && frac.isEmpty) then
        some (sign * ((natOfDigits intPart : ℚ) +
          (natOfDigits frac : ℚ) / (10 : ℚ) ^ frac.length))
      else none
  | _ => none

/-- Cell value delivered by `pd.to_numeric(·, errors="coerce")`: a parse
failure becomes NaN instead of raising. -/
def ofParse : Option ℚ → FV
  | some q => FV.num q
  | none => FV.nan

/-- Price-column cleaning of lines 61-65 of the source: drop every rupee
sign (`str.replace` of a one-character pattern by the empty string removes
each occurrence), then every comma, then coerce to numeric, failures
becoming NaN. -/
def parsePrice (s : String) : FV :=
  ofParse (parseNum (String.mk ((s.data.filter (fun c => c ≠ '₹')).filter
      (fun c => c ≠ ','))))

/-- The numeric coercion of lines 69-70 applied to the rating and
rating-count columns (no character stripping there). -/
def parseRating (s : String) : FV :=
  ofParse (parseNum s)

/-- The fixed conversion rate `INR_TO_EUR = 0.011` of line 44. -/
def INR_TO_EUR : ℚ := 11 / 1000

/-- Row of the CSV as loaded: every cell is text.  `other` stands for the
remaining columns of the file, which the cleaning step never touches. -/
structure RawRow where
  product_name : String
  category : String
  actual_price : String
  discounted_price : String
  rating : String
  rating_count : String
  other : String
deriving DecidableEq

/-- Row of the cleaned dataframe returned by `load_and_clean_data`:
the two price columns overwritten with numeric values, the two converted
columns and the discount column added, rating and rating count coerced
and filled. -/
structure CleanRow where
  product_name : String
  category : String
  actual_price : FV
  discounted_price : FV
  actual_price_eur : FV
  discounted_price_eur : FV
  rating : FV
  rating_count : FV
  discount_actual : FV
  other : String
deriving DecidableEq

/-- The discount computation of lines 77-78:
`((actual - discounted) / actual * 100).round(2)` on cells. -/
def discountActualFV (ap dp : FV) : FV :=
  fvRound2 (fvMul (fvDiv (fvSub ap dp) ap) (FV.num 100))

/-- Cleaning of one row, lines 61-78 of `load_and_clean_data`. -/
def cleanRow (r : RawRow) : CleanRow :=
  let ap := parsePrice r.actual_price
  let dp := parsePrice r.discounted_price
  { product_name := r.product_name
    category := r.category
    actual_price := ap
    discounted_price := dp
    actual_price_eur := fvMul ap (FV.num INR_TO_EUR)
    discounted_price_eur := fvMul dp (FV.num INR_TO_EUR)
    rating := fillna0 (parseRating r.rating)
    rating_count := fillna0 (parseRating r.rating_count)
    discount_actual := discountActualFV ap dp
    other := r.other }

/-- Column-wise cleaning of the whole table: `load_and_clean_data` applies
each step to every row and deletes none. -/
def cleanTable (t : List RawRow) : List CleanRow := t.map cleanRow

/-- Float addition on cells (IEEE rules; opposite infinities give NaN). -/
def fvAdd : FV → FV → FV
  | FV.nan, _ => FV.nan
  | _, FV.nan => FV.nan
  | FV.num a, FV.num b => FV.num (a + b)
  | FV.inf s, FV.num _ => FV.inf s
  | FV.num _, FV.inf s => FV.inf s
  | FV.inf s, FV.inf t => if s = t then FV.inf s else FV.nan

/-- Sum of a list of cells (pandas sums left to right from 0). -/
def fvSum (l : List FV) : FV := l.foldl fvAdd (FV.num 0)

/-- Pandas `Series.mean()`: NaN entries are skipped; the mean of an
all-NaN (or empty) series is NaN. -/
def fvMeanSkipNa (l : List FV) : FV :=
  let ws := l.filter (fun v => v ≠ FV.nan)
  if ws.isEmpty then FV.nan else fvDiv (fvSum ws) (FV.num ws.length)

/-- Embedding of the float order used when pandas sorts or ranks cells:
negative infinity below every finite value, positive infinity above.  NaN
never reaches a comparison (`nlargest` drops it first); it is mapped to the
bottom so the relation stays total on `FV`. -/
def key : FV → WithBot (WithTop ℚ)
  | FV.nan => ⊥
  | FV.inf false => ⊥
  | FV.inf true => ((⊤ : WithTop ℚ) : WithBot (WithTop ℚ))
  | FV.num q => ((q : WithTop ℚ) : WithBot (WithTop ℚ))

/-- Categories in the order `groupby("category")` yields its groups:
unique keys sorted ascending (pandas `groupby` defaults to `sort=True`). -/
def groupCategories (rows : List CleanRow) : List String :=
  List.insertionSort (fun a b : String => a ≤ b)
    ((rows.map (fun r => r.category)).dedup)

/-- Per-category mean of a numeric column, in group order:
`df.groupby("category")[col].mean()`. -/
def groupMeans (f : CleanRow → FV) (rows : List CleanRow) :
    List (String × FV) :=
  (groupCategories rows).map (fun c =>
    (c, fvMeanSkipNa ((rows.filter (fun r => r.category = c)).map f)))

/-- Comparison by which `Series.nlargest` ranks indexed entries: larger
value first, and among equal values the entry that came earlier in the
series first (`keep="first"`). -/
def nlRel (a b : ℕ × String × FV) : Prop :=
  key b.2.2 < key a.2.2 ∨ (key a.2.2 = key b.2.2 ∧ a.1 ≤ b.1)

instance : DecidableRel nlRel := fun a b => by
  unfold nlRel; infer_instance

/-- Entries of a series that survive the NaN-dropping `nlargest` performs. -/
def droppedNa (l : List (String × FV)) : List (String × FV) :=
  l.filter (fun p => p.2 ≠ FV.nan)

/-- Position-tagged entries sorted descending by value, ties kept in
series order. -/
def sortedDesc (l : List (String × FV)) : List (ℕ × String × FV) :=
  List.insertionSort nlRel l.enum

/-- Pandas `Series.nlargest(n)`: drop NaN, rank descending with first-come
tie-breaking, keep the first `n`. -/
def nlargest (n : ℕ) (l : List (String × FV)) : List (String × FV) :=
  ((sortedDesc (droppedNa l)).take n).map (fun p => p.2)

/-- Ascending value order used by `sort_values(ascending=True)`. -/
def ascRel (a b : String × FV) : Prop := key a.2 ≤ key b.2

instance : DecidableRel ascRel := fun a b => by
  unfold ascRel; infer_instance

/-- The bar-chart data of lines 121-122 and 236-237: per-category means,
the 15 largest, then sorted ascending for display. -/
def topMeanAsc (f : CleanRow → FV) (rows : List CleanRow) :
    List (String × FV) :=
  List.insertionSort ascRel (nlargest 15 (groupMeans f rows))

/-- Comparison `DataFrame.nlargest(n, col)` uses on position-tagged rows. -/
def rowRel (f : CleanRow → FV) (a b : ℕ × CleanRow) : Prop :=
  key (f b.2) < key (f a.2) ∨ (key (f a.2) = key (f b.2) ∧ a.1 ≤ b.1)

instance (f : CleanRow → FV) : DecidableRel (rowRel f) := fun a b => by
  unfold rowRel; infer_instance

/-- Pandas `DataFrame.nlargest(n, col)` on the cleaned table. -/
def nlargestRows (n : ℕ) (f : CleanRow → FV) (df : List CleanRow) :
    List CleanRow :=
  ((List.insertionSort (rowRel f) (df.filter (fun r => f r ≠ FV.nan)).enum).take
    n).map (fun p => p.2)

/-- Pandas truthiness of `v > 0` on a cell: false for NaN. -/
def fvGt0 : FV → Bool
  | FV.num q => decide (0 < q)
  | FV.inf s => s
  | FV.nan => false

/-- Model of `np.arange(start, stop, step)` for positive rational step. -/
def arange (start stop step : ℚ) : List ℚ :=
  (List.range (Int.ceil ((stop - start) / step)).toNat).map
    (fun i : ℕ => start + (i : ℚ) * step)

/-- The histogram bin edges of line 172: `np.arange(0, 5.1, 0.1)`. -/
def ratingBins : List ℚ := arange 0 (51 / 10) (1 / 10)

/-- Outcome of the matplotlib calls inside the `try` of `save_figure`
(lines 89-95): everything succeeds, `tight_layout` raises, or `savefig`
raises (for instance because the output directory is not writable). -/
inductive SaveOutcome where
  | ok : SaveOutcome
  | layoutFail : SaveOutcome
  | saveFail : SaveOutcome
deriving DecidableEq

/-- Observable operations `save_figure` performs on the rendering backend
and the log. -/
inductive FigOp where
  | tightLayout : FigOp
  | savefig : FigOp
  | closeAll : FigOp
  | logInfo : FigOp
  | logError : FigOp
deriving DecidableEq

/-- Lines 87-99: `try: tight_layout; savefig; close("all"); log; return
True` with `except: log error; close("all"); return False`.  The first
component is the returned boolean, the second the trace of backend
operations. -/
def save_figure : SaveOutcome → Bool × List FigOp
  | SaveOutcome.ok =>
      (true, [FigOp.tightLayout, FigOp.savefig, FigOp.closeAll, FigOp.logInfo])
  | SaveOutcome.layoutFail =>
      (false, [FigOp.tightLayout, FigOp.logError, FigOp.closeAll])
  | SaveOutcome.saveFail =>
      (false, [FigOp.tightLayout, FigOp.savefig, FigOp.logError, FigOp.closeAll])

/-- Data of the price-distribution figure (lines 101-146). -/
structure PriceReport where
  histValues : List FV
  topCategories : List (String × FV)
  saved : Bool
  figOps : List FigOp
deriving DecidableEq

/-- Lines 101-146: panel A histograms the converted actual prices, panel B
charts the 15 categories of largest mean converted price sorted ascending,
and the function returns what `save_figure` returns.  The second component
is the dataframe as the function leaves it: the source never assigns to
`df`, so it is returned unchanged. -/
def analyze_price_distribution (df : List CleanRow) (o : SaveOutcome) :
    PriceReport × List CleanRow :=
  let s := save_figure o
  ({ histValues := df.map (fun r => r.actual_price_eur)
     topCategories := topMeanAsc (fun r => r.actual_price_eur) df
     saved := s.1
     figOps := s.2 }, df)

/-- Data of the rating figure (lines 148-211). -/
structure RatingReport where
  scatterRatings : List FV
  histValues : List FV
  histBins : List ℚ
  topReviewed : List CleanRow
  saved : Bool
  figOps : List FigOp
deriving DecidableEq

/-- Lines 148-211: panel A scatters rating against review count, panel B
histograms the ratings of the rows with `rating > 0` over the bins
`np.arange(0, 5.1, 0.1)`, panel C charts the 15 most-reviewed rows in
reversed order, and the function returns what `save_figure` returns. -/
def analyze_ratings (df : List CleanRow) (o : SaveOutcome) :
    RatingReport × List CleanRow :=
  let s := save_figure o
  ({ scatterRatings := df.map (fun r => r.rating)
     histValues := (df.filter (fun r => fvGt0 r.rating)).map (fun r => r.rating)
     histBins := ratingBins
     topReviewed := (nlargestRows 15 (fun r => r.rating_count) df).reverse
     saved := s.1
     figOps := s.2 }, df)

/-- Data of the discount figure (lines 213-261). -/
structure DiscountReport where
  scatterPrices : List FV
  scatterDiscounts : List FV
  topCategories : List (String × FV)
  saved : Bool
  figOps : List FigOp
deriving DecidableEq

/-- Lines 213-261: panel A scatters converted price against discount,
panel B charts the 15 categories of largest mean discount sorted
ascending, and the function returns what `save_figure` returns. -/
def analyze_discounts (df : List CleanRow) (o : SaveOutcome) :
    DiscountReport × List CleanRow :=
  let s := save_figure o
  ({ scatterPrices := df.map (fun r => r.actual_price_eur)
     scatterDiscounts := df.map (fun r => r.discount_actual)
     topCategories := topMeanAsc (fun r => r.discount_actual) df
     saved := s.1
     figOps := s.2 }, df)

/-- One step of the driver sequence of `main` (lines 263-299). -/
inductive Step where
  | loadStep : Step
  | statsStep : Step
  | priceStep : Step
  | ratingStep : Step
  | discountStep : Step
  | topProductsStep : Step
deriving DecidableEq

/-- Environment the driver runs against: whether `pd.read_csv` succeeds
and with which rows, and whether each figure save succeeds. -/
structure Env where
  loadResult : Except String (List RawRow)
  priceSave : SaveOutcome
  ratingSave : SaveOutcome
  discountSave : SaveOutcome

/-- Lines 54-85: `load_and_clean_data` cleans the loaded rows; a read
failure is logged and re-raised (the `except` of lines 83-85 ends in
`raise`), so the error propagates to the caller. -/
def load_and_clean_data (e : Except String (List RawRow)) :
    Except String (List CleanRow) :=
  match e with
  | Except.error msg => Except.error msg
  | Except.ok t => Except.ok (cleanTable t)

/-- Lines 263-299: the driver loads and cleans, prints statistics, runs
the three reports in order price, rating, discount (their boolean results
are discarded, so a failed save does not stop the sequence), prints the
top-5 list, and re-raises any escaped exception after logging it.  The
result is the executed step trace together with the three report
booleans, or the propagated error. -/
def runMain (env : Env) : Except String (List Step × List Bool) :=
  match load_and_clean_data env.loadResult with
  | Except.error msg => Except.error msg
  | Except.ok df =>
      let r1 := analyze_price_distribution df env.priceSave
      let r2 := analyze_ratings df env.ratingSave
      let r3 := analyze_discounts df env.discountSave
      Except.ok
        ([Step.loadStep, Step.statsStep, Step.priceStep, Step.ratingStep,
          Step.discountStep, Step.topProductsStep],
         [r1.1.saved, r2.1.saved, r3.1.saved])

/-- Per-category mean converted actual price, in group order (line 121). -/
def priceMeans (rows : List CleanRow) : List (String × FV) :=
  groupMeans (fun r => r.actual_price_eur) rows

/-- The ranking `nlargest(15)` performs on the price means: position-tagged
non-NaN entries sorted descending, ties kept in group order. -/
def priceTopDesc (rows : List CleanRow) : List (ℕ × String × FV) :=
  sortedDesc (droppedNa (priceMeans rows))

/-- Fixture row with well-formed cells. -/
def rowA : RawRow :=
  { product_name := "Widget", category := "Home|Kitchen",
    actual_price := "₹1,000", discounted_price := "750", rating := "4.2",
    rating_count := "12", other := "x" }

/-- Fixture row whose actual price is zero and discounted price positive. -/
def rowZero : RawRow :=
  { product_name := "Widget", category := "Home|Kitchen",
    actual_price := "0", discounted_price := "750", rating := "4",
    rating_count := "1", other := "x" }

/-- Fixture row with unparseable price, rating and rating-count text. -/
def rowBad : RawRow :=
  { product_name := "Widget", category := "Home|Kitchen",
    actual_price := "", discounted_price := "abc", rating := "|",
    rating_count := "", other := "x" }

/-- Fixture raw row in category `c` with actual price text `p`. -/
def wRow (c p : String) : RawRow :=
  { product_name := "p", category := c, actual_price := p,
    discounted_price := "1", rating := "4", rating_count := "1", other := "" }

/-- Sixteen fixture rows in sixteen categories with distinct prices, so
that the top-15 selection has to drop exactly one category. -/
def wRaw : List RawRow :=
  [wRow "ca" "1000", wRow "cb" "2000", wRow "cc" "3000", wRow "cd" "4000",
   wRow "ce" "5000", wRow "cf" "6000", wRow "cg" "7000", wRow "ch" "8000",
   wRow "ci" "9000", wRow "cj" "10000", wRow "ck" "11000", wRow "cl" "12000",
   wRow "cm" "13000", wRow "cn" "14000", wRow "co" "15000", wRow "cp" "16000"]

/-- Driver environment where the load succeeds with an empty table and
every figure save fails. -/
def envAllSavesFail : Env :=
  { loadResult := Except.ok [], priceSave := SaveOutcome.saveFail,
    ratingSave := SaveOutcome.saveFail, discountSave := SaveOutcome.saveFail }

/-- Driver environment where the CSV read raises. -/
def envLoadFails : Env :=
  { loadResult := Except.error "read_csv failed", priceSave := SaveOutcome.ok,
    ratingSave := SaveOutcome.ok, discountSave := SaveOutcome.ok }

instance : IsTotal (ℕ × String × FV) nlRel where
  total := by
    intro a b
    rcases lt_trichotomy (key a.2.2) (key b.2.2) with h | h | h
    · exact Or.inr (Or.inl h)
    · rcases Nat.le_total a.1 b.1 with hn | hn
      · exact Or.inl (Or.inr ⟨h, hn⟩)
      · exact Or.inr (Or.inr ⟨h.symm, hn⟩)
    · exact Or.inl (Or.inl h)

instance : IsTrans (ℕ × String × FV) nlRel where
  trans := by
    intro a b c hab hbc
    rcases hab with hab | ⟨hab, hab2⟩ <;> rcases hbc with hbc | ⟨hbc, hbc2⟩
    · exact Or.inl (lt_trans hbc hab)
    · exact Or.inl (hbc ▸ hab)
    · exact Or.inl (hab ▸ hbc)
    · exact Or.inr ⟨hab.trans hbc, le_trans hab2 hbc2⟩

instance : IsTotal (String × FV) ascRel where
  total := by
    intro a b
    exact le_total (key a.2) (key b.2)

instance : IsTrans (String × FV) ascRel where
  trans := by
    intro a b c hab hbc
    exact le_trans hab hbc

theorem ofParse_num_or_nan (o : Option ℚ) :
    ofParse o = FV.nan ∨ ∃ q, ofParse o = FV.num q := by
  cases o with
  | none => exact Or.inl rfl
  | some q => exact Or.inr ⟨q, rfl⟩

theorem parsePrice_num_or_nan (s : String) :
    parsePrice s = FV.nan ∨ ∃ q, parsePrice s = FV.num q :=
  ofParse_num_or_nan _

theorem cleanRow_actual_price (r : RawRow) :
    (cleanRow r).actual_price = parsePrice r.actual_price := rfl

theorem cleanRow_discounted_price (r : RawRow) :
    (cleanRow r).discounted_price = parsePrice r.discounted_price := rfl

theorem cleanRow_actual_price_eur (r : RawRow) :
    (cleanRow r).actual_price_eur =
      fvMul (parsePrice r.actual_price) (FV.num INR_TO_EUR) := rfl

theorem cleanRow_discounted_price_eur (r : RawRow) :
    (cleanRow r).discounted_price_eur =
      fvMul (parsePrice r.discounted_price) (FV.num INR_TO_EUR) := rfl

theorem cleanRow_rating (r : RawRow) :
    (cleanRow r).rating = fillna0 (parseRating r.rating) := rfl

theorem cleanRow_rating_count (r : RawRow) :
    (cleanRow r).rating_count = fillna0 (parseRating r.rating_count) := rfl

theorem cleanRow_discount_actual (r : RawRow) :
    (cleanRow r).discount_actual =
      discountActualFV (parsePrice r.actual_price)
        (parsePrice r.discounted_price) := rfl

theorem fillna0_ofParse (o : Option ℚ) :
    (∃ q, fillna0 (ofParse o) = FV.num q) ∧
    (o = none → fillna0 (ofParse o) = FV.num 0) := by
  cases o with
  | none => exact ⟨⟨0, rfl⟩, fun _ => rfl⟩
  | some q => exact ⟨⟨q, rfl⟩, fun h => nomatch h⟩

/-- C6: for every row whose source price parses to a number, the converted
column equals that number times the conversion rate, and the rate is
exactly 0.011 = 11/1000. -/
theorem converted_price_is_rate_times_source (r : RawRow) (q : ℚ) :
    ((cleanRow r).actual_price = FV.num q →
      (cleanRow r).actual_price_eur = FV.num (q * INR_TO_EUR)) ∧
    ((cleanRow r).discounted_price = FV.num q →
      (cleanRow r).discounted_price_eur = FV.num (q * INR_TO_EUR)) ∧
    INR_TO_EUR = 11 / 1000 := by
  refine ⟨?_, ?_, rfl⟩
  · rw [cleanRow_actual_price, cleanRow_actual_price_eur]
    intro h
    rw [h]
    rfl
  · rw [cleanRow_discounted_price, cleanRow_discounted_price_eur]
    intro h
    rw [h]
    rfl

/-- Witness for C6 at the fixture row with prices 1000 and 750. -/
theorem converted_price_witness :
    (cleanRow rowA).actual_price_eur = FV.num (1000 * INR_TO_EUR) ∧
    (cleanRow rowA).discounted_price_eur = FV.num (750 * INR_TO_EUR) :=
  ⟨(converted_price_is_rate_times_source rowA 1000).1 (by with_unfolding_all rfl),
   (converted_price_is_rate_times_source rowA 750).2.1 (by with_unfolding_all rfl)⟩

/-- C10: a converted price column is missing exactly when its source price
column is missing; the multiplication by the rate propagates NaN both
ways. -/
theorem converted_missing_iff_source_missing (r : RawRow) :
    ((cleanRow r).actual_price_eur = FV.nan ↔
      (cleanRow r).actual_price = FV.nan) ∧
    ((cleanRow r).discounted_price_eur = FV.nan ↔
      (cleanRow r).discounted_price = FV.nan) := by
  constructor
  · rw [cleanRow_actual_price, cleanRow_actual_price_eur]
    rcases parsePrice_num_or_nan r.actual_price with h | ⟨q, h⟩ <;>
      rw [h] <;> simp [fvMul]
  · rw [cleanRow_discounted_price, cleanRow_discounted_price_eur]
    rcases parsePrice_num_or_nan r.discounted_price with h | ⟨q, h⟩ <;>
      rw [h] <;> simp [fvMul]

/-- C3: after cleaning, rating and rating count are finite numbers, 0
whenever coercion failed, and each price field is a number or missing. -/
theorem cleaned_row_invariant (r : RawRow) :
    (∃ q, (cleanRow r).rating = FV.num q) ∧
    (∃ q, (cleanRow r).rating_count = FV.num q) ∧
    (parseNum r.rating = none → (cleanRow r).rating = FV.num 0) ∧
    (parseNum r.rating_count = none → (cleanRow r).rating_count = FV.num 0) ∧
    ((cleanRow r).actual_price = FV.nan ∨
      ∃ q, (cleanRow r).actual_price = FV.num q) ∧
    ((cleanRow r).discounted_price = FV.nan ∨
      ∃ q, (cleanRow r).discounted_price = FV.num q) := by
  refine ⟨?_, ?_, ?_, ?_, ?_, ?_⟩
  · rw [cleanRow_rating]; exact (fillna0_ofParse _).1
  · rw [cleanRow_rating_count]; exact (fillna0_ofParse _).1
  · rw [cleanRow_rating]; exact (fillna0_ofParse _).2
  · rw [cleanRow_rating_count]; exact (fillna0_ofParse _).2
  · rw [cleanRow_actual_price]; exact parsePrice_num_or_nan _
  · rw [cleanRow_discounted_price]; exact parsePrice_num_or_nan _

/-- Witness for C3 at the fixture row with unparseable rating cells. -/
theorem cleaned_row_invariant_witness :
    (cleanRow rowBad).rating = FV.num 0 ∧
    (cleanRow rowBad).rating_count = FV.num 0 :=
  ⟨(cleaned_row_invariant rowBad).2.2.1 (by with_unfolding_all rfl),
   (cleaned_row_invariant rowBad).2.2.2.1 (by with_unfolding_all rfl)⟩

/-- C5: each report function returns true exactly when the save succeeds,
returns false instead of raising on a layout or save failure, and in every
case its backend trace contains the close-all release. -/
theorem report_save_contract (df : List CleanRow) (o : SaveOutcome) :
    ((analyze_price_distribution df o).1.saved = true ↔ o = SaveOutcome.ok) ∧
    ((analyze_ratings df o).1.saved = true ↔ o = SaveOutcome.ok) ∧
    ((analyze_discounts df o).1.saved = true ↔ o = SaveOutcome.ok) ∧
    FigOp.closeAll ∈ (analyze_price_distribution df o).1.figOps ∧
    FigOp.closeAll ∈ (analyze_ratings df o).1.figOps ∧
    FigOp.closeAll ∈ (analyze_discounts df o).1.figOps := by
  cases o <;>
    simp [analyze_price_distribution, analyze_ratings, analyze_discounts,
      save_figure]

/-- C7: cleaning preserves the row count and every column other than the
modified and added ones, and the report functions hand the table back
unchanged. -/
theorem cleaning_frame_contract (t : List RawRow) (i : ℕ)
    (df : List CleanRow) (o : SaveOutcome) :
    (cleanTable t).length = t.length ∧
    ((cleanTable t)[i]?).map (fun r => r.product_name) =
      (t[i]?).map (fun r => r.product_name) ∧
    ((cleanTable t)[i]?).map (fun r => r.category) =
      (t[i]?).map (fun r => r.category) ∧
    ((cleanTable t)[i]?).map (fun r => r.other) =
      (t[i]?).map (fun r => r.other) ∧
    (analyze_price_distribution df o).2 = df ∧
    (analyze_ratings df o).2 = df ∧
    (analyze_discounts df o).2 = df := by
  refine ⟨by simp [cleanTable], ?_, ?_, ?_, rfl, rfl, rfl⟩ <;>
  · show ((t.map cleanRow)[i]?).map _ = _
    rw [List.getElem?_map]
    cases t[i]? <;> rfl

/-- C9: with a successful load the driver executes load, statistics, the
three reports in the order price, rating, discount, and the top-5 list,
whatever the save outcomes; a load failure propagates as the error of the
whole run. -/
theorem driver_sequence (env : Env) :
    (∀ rows, env.loadResult = Except.ok rows →
      runMain env = Except.ok
        ([Step.loadStep, Step.statsStep, Step.priceStep, Step.ratingStep,
          Step.discountStep, Step.topProductsStep],
         [(analyze_price_distribution (cleanTable rows) env.priceSave).1.saved,
          (analyze_ratings (cleanTable rows) env.ratingSave).1.saved,
          (analyze_discounts (cleanTable rows) env.discountSave).1.saved])) ∧
    (∀ msg, env.loadResult = Except.error msg →
      runMain env = Except.error msg) := by
  constructor
  · intro rows h
    simp [runMain, load_and_clean_data, h]
  · intro msg h
    simp [runMain, load_and_clean_data, h]

/-- Witness for C9: all three saves failing still runs the whole sequence
with three false booleans, while a load failure propagates its error. -/
theorem driver_sequence_witness :
    runMain envAllSavesFail = Except.ok
      ([Step.loadStep, Step.statsStep, Step.priceStep, Step.ratingStep,
        Step.discountStep, Step.topProductsStep], [false, false, false]) ∧
    runMain envLoadFails = Except.error "read_csv failed" := by
  constructor
  · have h := (driver_sequence envAllSavesFail).1 [] rfl
    simpa [analyze_price_distribution, analyze_ratings, analyze_discounts,
      save_figure, envAllSavesFail] using h
  · exact (driver_sequence envLoadFails).2 "read_csv failed" rfl

/-- Counterexample to C1 as stated: at actual price 0 and discounted price
750, the discount cell is negative infinity — an infinite value, not a
missing one. -/
theorem discount_at_zero_is_infinite :
    (cleanRow rowZero).actual_price = FV.num 0 ∧
    (cleanRow rowZero).discounted_price = FV.num 750 ∧
    (cleanRow rowZero).discount_actual = FV.inf false ∧
    (cleanRow rowZero).discount_actual ≠ FV.nan := by
  have h3 : (cleanRow rowZero).discount_actual = FV.inf false := by
    with_unfolding_all rfl
  refine ⟨by with_unfolding_all rfl, by with_unfolding_all rfl, h3, ?_⟩
  rw [h3]
  intro h
  exact FV.noConfusion h

/-- C1 (amended): the discount equals the rounded formula whenever the
actual price is a nonzero number; it is missing when either source price
is missing or when both prices are zero; but when the actual price is
zero and the discounted price a nonzero number, the cell is a signed
infinity (negative for a positive discounted price), not a missing
value. -/
theorem discount_actual_spec (r : RawRow) :
    (∀ qa qd, (cleanRow r).actual_price = FV.num qa →
      (cleanRow r).discounted_price = FV.num qd → qa ≠ 0 →
      (cleanRow r).discount_actual =
        FV.num (round2q ((qa - qd) / qa * 100))) ∧
    ((cleanRow r).actual_price = FV.nan →
      (cleanRow r).discount_actual = FV.nan) ∧
    ((cleanRow r).discounted_price = FV.nan →
      (cleanRow r).discount_actual = FV.nan) ∧
    (∀ qd, (cleanRow r).actual_price = FV.num 0 →
      (cleanRow r).discounted_price = FV.num qd →
      ((qd = 0 → (cleanRow r).discount_actual = FV.nan) ∧
       (0 < qd → (cleanRow r).discount_actual = FV.inf false) ∧
       (qd < 0 → (cleanRow r).discount_actual = FV.inf true))) := by
  rw [cleanRow_actual_price, cleanRow_discounted_price, cleanRow_discount_actual]
  refine ⟨?_, ?_, ?_, ?_⟩
  · intro qa qd ha hd hz
    rw [ha, hd]
    simp [discountActualFV, fvSub, fvDiv, fvMul, fvRound2, hz]
  · intro ha
    rw [ha]
    rcases parsePrice_num_or_nan r.discounted_price with h | ⟨q, h⟩ <;>
      rw [h] <;> rfl
  · intro hd
    rw [hd]
    rcases parsePrice_num_or_nan r.actual_price with h | ⟨q, h⟩ <;>
      rw [h] <;> rfl
  · intro qd ha hd
    rw [ha, hd]
    refine ⟨?_, ?_, ?_⟩
    · intro h
      subst h
      norm_num [discountActualFV, fvSub, fvDiv, fvMul, fvRound2]
    · intro h
      have h0 : (0 : ℚ) - qd ≠ 0 := by intro he; rw [sub_eq_zero] at he; linarith
      have h1 : ¬(0 < (0 : ℚ) - qd) := by linarith
      have h2 : qd ≠ 0 := ne_of_gt h
      have h3 : ¬qd < 0 := by linarith
      norm_num [discountActualFV, fvSub, fvDiv, fvMul, fvRound2, h0, h1, h2, h3]
    · intro h
      have h0 : (0 : ℚ) - qd ≠ 0 := by intro he; rw [sub_eq_zero] at he; linarith
      have h1 : 0 < (0 : ℚ) - qd := by linarith
      have h2 : qd ≠ 0 := ne_of_lt h
      norm_num [discountActualFV, fvSub, fvDiv, fvMul, fvRound2, h0, h1, h2, h]

/-- Witness for the amended C1: at prices 1000 and 750 the discount cell
is the rounded formula value, 25; with a missing actual price it is
missing. -/
theorem discount_actual_spec_witness :
    (cleanRow rowA).discount_actual =
      FV.num (round2q ((1000 - 750) / 1000 * 100)) ∧
    round2q ((1000 - 750) / 1000 * 100) = 25 ∧
    (cleanRow rowBad).discount_actual = FV.nan :=
  ⟨(discount_actual_spec rowA).1 1000 750 (by with_unfolding_all rfl)
      (by with_unfolding_all rfl) (by norm_num),
   by with_unfolding_all rfl,
   (discount_actual_spec rowBad).2.1 (by with_unfolding_all rfl)⟩

theorem filter_ne_of_all (l : List Char) (a : Char) (h : ∀ c ∈ l, c ≠ a) :
    l.filter (fun c => c ≠ a) = l := by
  rw [List.filter_eq_self]
  intro c hc
  simpa using h c hc

theorem digit_ne_rupee {c : Char} (h : c.isDigit = true) : c ≠ '₹' := by
  intro he
  rw [he] at h
  exact absurd h (by decide)

theorem digit_ne_comma {c : Char} (h : c.isDigit = true) : c ≠ ',' := by
  intro he
  rw [he] at h
  exact absurd h (by decide)

theorem parseNum_all_digits (l : List Char) (h : ∀ c ∈ l, c.isDigit = true)
    (hne : l ≠ []) : parseNum (String.mk l) = some (natOfDigits l) := by
  cases l with
  | nil => exact absurd rfl hne
  | cons c cs =>
    have hc : c.isDigit = true := h c (List.mem_cons_self c cs)
    have hd : c ≠ '-' := by
      intro he; rw [he] at hc; exact absurd hc (by decide)
    have hp : c ≠ '+' := by
      intro he; rw [he] at hc; exact absurd hc (by decide)
    have ht : (c :: cs).takeWhile (fun x => x.isDigit) = c :: cs :=
      List.takeWhile_eq_self_iff.mpr h
    have hw : (c :: cs).dropWhile (fun x => x.isDigit) = [] :=
      List.dropWhile_eq_nil_iff.mpr h
    simp [parseNum, ht, hw, hd, hp]

/-- C2: a price text made of the currency symbol, digits and a thousands
separator is coerced to the plain decimal value of its digits, while
unparseable text such as the empty string becomes a missing value instead
of an error. -/
theorem price_text_coercion (d1 d2 : List Char)
    (h1 : ∀ c ∈ d1, c.isDigit = true) (h2 : ∀ c ∈ d2, c.isDigit = true)
    (hne : d1 ≠ []) :
    parsePrice (String.mk ('₹' :: d1 ++ ',' :: d2)) =
      FV.num (natOfDigits (d1 ++ d2)) ∧
    parsePrice "" = FV.nan := by
  constructor
  · have f1 : d1.filter (fun c => c ≠ '₹') = d1 :=
      filter_ne_of_all d1 '₹' (fun c hc => digit_ne_rupee (h1 c hc))
    have f2 : d2.filter (fun c => c ≠ '₹') = d2 :=
      filter_ne_of_all d2 '₹' (fun c hc => digit_ne_rupee (h2 c hc))
    have g1 : d1.filter (fun c => c ≠ ',') = d1 :=
      filter_ne_of_all d1 ',' (fun c hc => digit_ne_comma (h1 c hc))
    have g2 : d2.filter (fun c => c ≠ ',') = d2 :=
      filter_ne_of_all d2 ',' (fun c hc => digit_ne_comma (h2 c hc))
    have hstrip :
        ((('₹' :: d1 ++ ',' :: d2).filter (fun c => c ≠ '₹')).filter
          (fun c => c ≠ ',')) = d1 ++ d2 := by
      rw [show ('₹' :: d1 ++ ',' :: d2) = '₹' :: (d1 ++ ',' :: d2) from rfl]
      rw [List.filter_cons_of_neg (by simp), List.filter_append, f1,
        List.filter_cons_of_pos (by simp), List.filter_append, g1, f2,
        List.filter_cons_of_neg (by simp), g2]
    have hall : ∀ c ∈ d1 ++ d2, c.isDigit = true := by
      intro c hc
      rcases List.mem_append.mp hc with hc | hc
      · exact h1 c hc
      · exact h2 c hc
    have hne2 : d1 ++ d2 ≠ [] := by
      intro he
      exact hne (List.append_eq_nil.mp he).1
    unfold parsePrice
    rw [show (String.mk ('₹' :: d1 ++ ',' :: d2)).data =
      '₹' :: d1 ++ ',' :: d2 from rfl, hstrip,
      parseNum_all_digits (d1 ++ d2) hall hne2]
    rfl
  · rfl

/-- Witness for C2: the text `₹1,234` is coerced to the number 1234. -/
theorem price_text_coercion_witness :
    parsePrice (String.mk ('₹' :: ['1'] ++ ',' :: ['2', '3', '4'])) =
      FV.num (natOfDigits (['1'] ++ ['2', '3', '4'])) ∧
    (natOfDigits (['1'] ++ ['2', '3', '4']) : ℚ) = 1234 :=
  ⟨(price_text_coercion ['1'] ['2', '3', '4'] (by decide) (by decide)
      (by decide)).1,
   by with_unfolding_all rfl⟩

theorem ratingBins_eq :
    ratingBins = (List.range 51).map (fun i : ℕ => (i : ℚ) / 10) := by
  have hc : (((51 : ℚ) / 10 - 0) / (1 / 10)) = ((51 : ℤ) : ℚ) := by norm_num
  unfold ratingBins arange
  rw [hc, Int.ceil_intCast]
  refine List.map_congr_left ?_
  intro i _
  ring

theorem ratingBins_chain :
    List.Chain' (fun a b => b - a = 1 / 10) ratingBins := by
  rw [ratingBins_eq]
  refine (List.chain'_map _).mpr ?_
  rw [show (51 : ℕ) = Nat.succ 50 from rfl, List.chain'_range_succ]
  intro m _
  push_cast
  ring

/-- C8: the rating histogram input is exactly the ratings of the rows
with rating above zero, and the bin edges are 51 values spaced 1/10 apart
from 0 to 5. -/
theorem rating_histogram_spec (df : List CleanRow) (o : SaveOutcome)
    (r : CleanRow) :
    (analyze_ratings df o).1.histValues =
      (df.filter (fun x => fvGt0 x.rating)).map (fun x => x.rating) ∧
    (r ∈ df.filter (fun x => fvGt0 x.rating) ↔
      r ∈ df ∧ fvGt0 r.rating = true) ∧
    (∀ q, fvGt0 (FV.num q) = true ↔ 0 < q) ∧
    (analyze_ratings df o).1.histBins = ratingBins ∧
    ratingBins = (List.range 51).map (fun i : ℕ => (i : ℚ) / 10) ∧
    ratingBins.length = 51 ∧
    ratingBins.head? = some 0 ∧
    ratingBins.getLast? = some 5 ∧
    List.Chain' (fun a b => b - a = 1 / 10) ratingBins := by
  refine ⟨rfl, List.mem_filter, ?_, rfl, ratingBins_eq, ?_, ?_, ?_,
    ratingBins_chain⟩
  · intro q
    simp [fvGt0]
  · with_unfolding_all rfl
  · with_unfolding_all rfl
  · with_unfolding_all rfl

theorem key_num_lt {a b : ℚ} : key (FV.num a) < key (FV.num b) ↔ a < b := by
  simp [key]

theorem key_num_inj {a b : ℚ} : key (FV.num a) = key (FV.num b) ↔ a = b := by
  simp [key]

theorem foldl_fvAdd_num (l : List FV) (h : ∀ v ∈ l, ∃ q, v = FV.num q) :
    ∀ a : ℚ, ∃ q, l.foldl fvAdd (FV.num a) = FV.num q := by
  induction l with
  | nil => exact fun a => ⟨a, rfl⟩
  | cons x xs ih =>
    intro a
    obtain ⟨qx, hx⟩ := h x (List.mem_cons_self _ _)
    rw [List.foldl_cons, hx]
    exact ih (fun v hv => h v (List.mem_cons_of_mem _ hv)) (a + qx)

theorem fvMeanSkipNa_num_or_nan (l : List FV)
    (h : ∀ v ∈ l, v = FV.nan ∨ ∃ q, v = FV.num q) :
    fvMeanSkipNa l = FV.nan ∨ ∃ q, fvMeanSkipNa l = FV.num q := by
  unfold fvMeanSkipNa
  by_cases he : (l.filter (fun v => v ≠ FV.nan)).isEmpty
  · rw [if_pos he]
    exact Or.inl rfl
  · rw [if_neg he]
    right
    have hall : ∀ v ∈ l.filter (fun v => v ≠ FV.nan), ∃ q, v = FV.num q := by
      intro v hv
      have hmem := List.mem_filter.mp hv
      rcases h v hmem.1 with hnan | hnum
      · exact absurd hnan (by simpa using hmem.2)
      · exact hnum
    obtain ⟨qs, hqs⟩ := foldl_fvAdd_num _ hall 0
    have hsum : fvSum (l.filter (fun v => v ≠ FV.nan)) = FV.num qs := hqs
    have hlen : ((l.filter (fun v => v ≠ FV.nan)).length : ℚ) ≠ 0 := by
      have hne : l.filter (fun v => v ≠ FV.nan) ≠ [] := by
        simpa [List.isEmpty_iff] using he
      have hpos : 0 < (l.filter (fun v => v ≠ FV.nan)).length :=
        List.length_pos.mpr hne
      exact_mod_cast Nat.pos_iff_ne_zero.mp hpos
    rw [hsum]
    refine ⟨qs / (l.filter (fun v => v ≠ FV.nan)).length, ?_⟩
    show fvDiv (FV.num qs)
      (FV.num ((l.filter (fun v => v ≠ FV.nan)).length : ℚ)) = _
    simp only [fvDiv]
    rw [if_neg hlen]

theorem cleanRow_eur_num_or_nan (r : RawRow) :
    (cleanRow r).actual_price_eur = FV.nan ∨
      ∃ q, (cleanRow r).actual_price_eur = FV.num q := by
  rw [cleanRow_actual_price_eur]
  rcases parsePrice_num_or_nan r.actual_price with h | ⟨q, h⟩ <;> rw [h]
  · exact Or.inl rfl
  · exact Or.inr ⟨q * INR_TO_EUR, rfl⟩

theorem priceMeans_num_or_nan (t : List RawRow) (p : String × FV)
    (hp : p ∈ priceMeans (cleanTable t)) :
    p.2 = FV.nan ∨ ∃ q, p.2 = FV.num q := by
  unfold priceMeans groupMeans at hp
  obtain ⟨c, _, heq⟩ := List.mem_map.mp hp
  rw [← heq]
  apply fvMeanSkipNa_num_or_nan
  intro v hv
  obtain ⟨row, hrow, hveq⟩ := List.mem_map.mp hv
  have hrow2 : row ∈ cleanTable t := (List.mem_filter.mp hrow).1
  obtain ⟨raw, _, hroweq⟩ := List.mem_map.mp hrow2
  rw [← hveq, ← hroweq]
  exact cleanRow_eur_num_or_nan raw

/-- C4: the price report displays `topMeanAsc`, which sorts ascending by
mean the 15 groups `nlargest` selects; group means of this column are
finite wherever they are not dropped as NaN; and every selected entry
dominates every dropped entry of the ranked group series: it has a
strictly larger mean, or an equal mean and a position no later in the
group order (pandas iterates groups in sorted key order). -/
theorem top15_price_selection (t : List RawRow) :
    (∀ o, (analyze_price_distribution (cleanTable t) o).1.topCategories =
      topMeanAsc (fun r => r.actual_price_eur) (cleanTable t)) ∧
    (topMeanAsc (fun r => r.actual_price_eur) (cleanTable t)).Sorted ascRel ∧
    (topMeanAsc (fun r => r.actual_price_eur) (cleanTable t)).Perm
      (nlargest 15 (priceMeans (cleanTable t))) ∧
    (∀ p ∈ droppedNa (priceMeans (cleanTable t)), ∃ q, p.2 = FV.num q) ∧
    (∀ x ∈ (priceTopDesc (cleanTable t)).take 15,
      ∀ y ∈ (droppedNa (priceMeans (cleanTable t))).enum,
      y ∉ (priceTopDesc (cleanTable t)).take 15 →
      ∀ qx qy, x.2.2 = FV.num qx → y.2.2 = FV.num qy →
        qy < qx ∨ (qy = qx ∧ x.1 ≤ y.1)) := by
  refine ⟨fun o => rfl, List.sorted_insertionSort ascRel _,
    List.perm_insertionSort ascRel _, ?_, ?_⟩
  · intro p hp
    have hmem := List.mem_filter.mp hp
    rcases priceMeans_num_or_nan t p hmem.1 with hnan | hnum
    · exact absurd hnan (by simpa using hmem.2)
    · exact hnum
  · intro x hx y hy hynot qx qy hqx hqy
    have hsorted : List.Pairwise nlRel (priceTopDesc (cleanTable t)) :=
      List.sorted_insertionSort nlRel _
    have hyin : y ∈ priceTopDesc (cleanTable t) :=
      (List.Perm.mem_iff (List.perm_insertionSort nlRel _)).mpr hy
    have hsplit := List.take_append_drop 15 (priceTopDesc (cleanTable t))
    rw [← hsplit] at hsorted hyin
    have hydrop : y ∈ (priceTopDesc (cleanTable t)).drop 15 := by
      rcases List.mem_append.mp hyin with h | h
      · exact absurd h hynot
      · exact h
    have hcross := (List.pairwise_append.mp hsorted).2.2
    have hrel : nlRel x y := hcross x hx y hydrop
    rcases hrel with h | ⟨heq, hle⟩
    · left
      rw [hqx, hqy] at h
      exact key_num_lt.mp h
    · right
      rw [hqx, hqy] at heq
      exact ⟨(key_num_inj.mp heq).symm, hle⟩

set_option maxHeartbeats 1000000

/-- Witness for C4 at sixteen one-row categories with means 11 to 176:
the first selected entry (mean 176, group position 15) dominates the one
dropped entry (mean 11, group position 0). -/
theorem top15_price_selection_witness :
    (11 : ℚ) < 176 ∨ ((11 : ℚ) = 176 ∧ (15 : ℕ) ≤ 0) := by
  have h1 : (priceTopDesc (cleanTable wRaw)).take 15 =
      [(15, ("cp", FV.num 176)), (14, ("co", FV.num 165)),
       (13, ("cn", FV.num 154)), (12, ("cm", FV.num 143)),
       (11, ("cl", FV.num 132)), (10, ("ck", FV.num 121)),
       (9, ("cj", FV.num 110)), (8, ("ci", FV.num 99)),
       (7, ("ch", FV.num 88)), (6, ("cg", FV.num 77)),
       (5, ("cf", FV.num 66)), (4, ("ce", FV.num 55)),
       (3, ("cd", FV.num 44)), (2, ("cc", FV.num 33)),
       (1, ("cb", FV.num 22))] := by
    with_unfolding_all rfl
  have h2 : (droppedNa (priceMeans (cleanTable wRaw))).enum =
      [(0, ("ca", FV.num 11)), (1, ("cb", FV.num 22)),
       (2, ("cc", FV.num 33)), (3, ("cd", FV.num 44)),
       (4, ("ce", FV.num 55)), (5, ("cf", FV.num 66)),
       (6, ("cg", FV.num 77)), (7, ("ch", FV.num 88)),
       (8, ("ci", FV.num 99)), (9, ("cj", FV.num 110)),
       (10, ("ck", FV.num 121)), (11, ("cl", FV.num 132)),
       (12, ("cm", FV.num 143)), (13, ("cn", FV.num 154)),
       (14, ("co", FV.num 165)), (15, ("cp", FV.num 176))] := by
    with_unfolding_all rfl
  refine (top15_price_selection wRaw).2.2.2.2 (15, ("cp", FV.num 176)) ?_
    (0, ("ca", FV.num 11)) ?_ ?_ 176 11 rfl rfl
  · rw [h1]
    exact List.mem_cons_self _ _
  · rw [h2]
    exact List.mem_cons_self _ _
  · rw [h1]
    simp
